import Mathlib

/-!
Verification of the Sunday-school attendance register (`streamlit_app.py`).

The development shallowly embeds the program's data model and operations:

* Dates are modelled as natural day numbers on a Monday epoch, so that
  `weekday d = d % 7` matches Python's `date.weekday()` (Monday = 0, Sunday = 6)
  and adding one day adds one.  In the concrete examples, day 0 stands for
  2024-01-01 (a Monday).
* SQLite tables are modelled as Lean lists of records; `INSERT OR REPLACE`
  keyed on a primary key is modelled by removing the rows sharing the key and
  appending the fresh row.
* Floating-point report percentages are modelled exactly over `ℚ`, and the
  Python `:.1f` format specifier by round-half-to-even at one decimal place.
-/

namespace SchoolAttendance

/-! ## Session calendar (`get_all_sundays`) -/

/-- Loop body of `get_all_sundays`: collect `current, current+7, …` while
`current ≤ endD` (the `while current_date <= end_date` loop). -/
def sundaysFrom (current endD : Nat) : List Nat :=
  if current ≤ endD then current :: sundaysFrom (current + 7) endD else []
termination_by endD + 1 - current
decreasing_by omega

/-- `get_all_sundays(start_date, end_date)`: first Sunday on or after
`start_date` via offset `(6 - start_date.weekday() + 7) % 7`, then step by 7
while `≤ end_date`. -/
def get_all_sundays (start_date end_date : Nat) : List Nat :=
  sundaysFrom (start_date + (6 - start_date % 7 + 7) % 7) end_date

lemma mem_sundaysFrom (c e d : Nat) :
    d ∈ sundaysFrom c e ↔ (c ≤ d ∧ d ≤ e ∧ (d - c) % 7 = 0) := by
  induction c, e using sundaysFrom.induct with
  | case1 c e h ih =>
    rw [sundaysFrom]
    simp only [if_pos h, List.mem_cons, ih]
    omega
  | case2 c e h =>
    rw [sundaysFrom]
    simp only [if_neg h, List.not_mem_nil, false_iff]
    omega

lemma head?_sundaysFrom (c e : Nat) :
    (sundaysFrom c e).head? = if c ≤ e then some c else none := by
  rw [sundaysFrom]
  split <;> simp

lemma chain'_sundaysFrom (c e : Nat) :
    List.Chain' (fun a b => b = a + 7) (sundaysFrom c e) := by
  induction c, e using sundaysFrom.induct with
  | case1 c e h ih =>
    rw [sundaysFrom, if_pos h, List.chain'_cons']
    refine ⟨fun b hb => ?_, ih⟩
    rw [head?_sundaysFrom] at hb
    split at hb
    · simpa using hb.symm
    · simp at hb
  | case2 c e h =>
    rw [sundaysFrom, if_neg h]
    exact List.chain'_nil

lemma mem_get_all_sundays (s e d : Nat) :
    d ∈ get_all_sundays s e ↔ (s ≤ d ∧ d ≤ e ∧ d % 7 = 6) := by
  rw [get_all_sundays, mem_sundaysFrom]
  omega

lemma get_all_sundays_concrete : get_all_sundays 0 30 = [6, 13, 20, 27] := by
  rw [get_all_sundays]
  norm_num
  rw [sundaysFrom, if_pos (by norm_num)]
  rw [sundaysFrom, if_pos (by norm_num)]
  rw [sundaysFrom, if_pos (by norm_num)]
  rw [sundaysFrom, if_pos (by norm_num)]
  rw [sundaysFrom, if_neg (by norm_num)]

/-- C3: `get_all_sundays start end` returns exactly the Sundays `d` with
`start ≤ d ≤ end` (weekday 6 in the Monday-epoch day numbering, as in Python's
`weekday()`), in strictly ascending order with consecutive elements 7 days
apart; `start` itself is included when it is a Sunday; the result is empty when
`start > end`; the first element is `start + (6 - start.weekday() + 7) % 7`;
and for start = 2024-01-01 (a Monday, day 0) and end = 2024-01-31 (day 30) the
result has exactly 4 entries, first 2024-01-07 (day 6) and last 2024-01-28
(day 27). -/
theorem C3_get_all_sundays (s e : Nat) :
    (∀ d, d ∈ get_all_sundays s e ↔ (s ≤ d ∧ d ≤ e ∧ d % 7 = 6)) ∧
    List.Chain' (fun a b => b = a + 7) (get_all_sundays s e) ∧
    List.Pairwise (· < ·) (get_all_sundays s e) ∧
    (e < s → get_all_sundays s e = []) ∧
    (∀ h : get_all_sundays s e ≠ [],
      (get_all_sundays s e).head h = s + (6 - s % 7 + 7) % 7) ∧
    (s % 7 = 6 → s ≤ e → s ∈ get_all_sundays s e) ∧
    get_all_sundays 0 30 = [6, 13, 20, 27] := by
  have hchain := chain'_sundaysFrom (s + (6 - s % 7 + 7) % 7) e
  refine ⟨mem_get_all_sundays s e, hchain, ?_, ?_, ?_, ?_, get_all_sundays_concrete⟩
  · rw [← List.chain'_iff_pairwise]
    exact hchain.imp (fun a b h => by omega)
  · intro h
    rw [get_all_sundays, sundaysFrom, if_neg (by omega)]
  · intro h
    have h1 : (get_all_sundays s e).head? = some ((get_all_sundays s e).head h) :=
      List.head?_eq_head h
    have h2 : (get_all_sundays s e).head? =
        if s + (6 - s % 7 + 7) % 7 ≤ e then some (s + (6 - s % 7 + 7) % 7) else none :=
      head?_sundaysFrom _ e
    rw [h1] at h2
    split at h2
    · exact (Option.some.injEq _ _ ▸ h2 : _)
    · exact absurd h2 (by simp)
  · intro hs hse
    rw [mem_get_all_sundays]
    omega

/-- Witness for C3 at concrete inputs. -/
theorem C3_get_all_sundays_witness :
    (6 ∈ get_all_sundays 0 30 ↔ (0 ≤ 6 ∧ 6 ≤ 30 ∧ 6 % 7 = 6)) ∧
    get_all_sundays 31 30 = [] ∧
    6 ∈ get_all_sundays 6 30 :=
  ⟨(C3_get_all_sundays 0 30).1 6,
   (C3_get_all_sundays 31 30).2.2.2.1 (by norm_num),
   (C3_get_all_sundays 6 30).2.2.2.2.2.1 (by norm_num) (by norm_num)⟩

/-! ## Attendance ledger -/

/-- Row of the `attendance` table, `PRIMARY KEY (date, student_id)`. -/
structure AttRecord where
  date : Nat
  student_id : Nat
  status : String
deriving DecidableEq

/-- `INSERT OR REPLACE INTO attendance (date, student_id, status)`: the rows
sharing the primary key are replaced by the fresh row. -/
def upsert (att : List AttRecord) (d sid : Nat) (st : String) : List AttRecord :=
  att.filter (fun r => !(r.date == d && r.student_id == sid)) ++ [⟨d, sid, st⟩]

/-- Lookup of the stored status for a `(date, student_id)` key. -/
def getAtt (att : List AttRecord) (d sid : Nat) : Option String :=
  (att.find? (fun r => r.date == d && r.student_id == sid)).map (fun r => r.status)

/-- The `SAVE ATTENDANCE` form handler: with the `no_class_check` box ticked,
every student of the class roster is upserted with status `N/C` (the
per-student input is ignored); otherwise every `(student, status)` pair of the
per-student form input is upserted. -/
def saveAttendance (att : List AttRecord) (d : Nat) (roster : List Nat)
    (noClass : Bool) (ps : List (Nat × String)) : List AttRecord :=
  if noClass then
    roster.foldl (fun a sid => upsert a d sid "N/C") att
  else
    ps.foldl (fun a p => upsert a d p.1 p.2) att

/-- Primary-key invariant of the `attendance` table: no two rows share the
`(date, student_id)` key. -/
def uniqueKeys (att : List AttRecord) : Prop :=
  att.Pairwise (fun a b => ¬(a.date = b.date ∧ a.student_id = b.student_id))

/-- Statuses the application ever writes. -/
def statusesOK (att : List AttRecord) : Prop :=
  ∀ r ∈ att, r.status = "P" ∨ r.status = "A" ∨ r.status = "N/C"

/-- Mutating operations that touch the `attendance` table: the SAVE ATTENDANCE
handler and the student-deletion cascade (`ON DELETE CASCADE`). -/
inductive MutOp where
  | save (d : Nat) (roster : List Nat) (noClass : Bool) (ps : List (Nat × String))
  | delStudent (sid : Nat)

def applyMutOp (att : List AttRecord) : MutOp → List AttRecord
  | .save d roster nc ps => saveAttendance att d roster nc ps
  | .delStudent sid => att.filter (fun r => !(r.student_id == sid))

/-- For a per-student save, the form radio offers exactly the choices `P` and
`A`; the no-session path ignores the per-student input. -/
def validOp : MutOp → Prop
  | .save _ _ noClass ps => noClass = false → ∀ p ∈ ps, p.2 = "P" ∨ p.2 = "A"
  | .delStudent _ => True

lemma find?_filter_eq {α : Type} (l : List α) (p q : α → Bool)
    (h : ∀ x, p x = true → q x = true) :
    (l.filter q).find? p = l.find? p := by
  induction l with
  | nil => rfl
  | cons a l ih =>
    by_cases hq : q a = true
    · rw [List.filter_cons_of_pos hq]
      by_cases hp : p a = true
      · rw [List.find?_cons_of_pos _ hp, List.find?_cons_of_pos _ hp]
      · rw [List.find?_cons_of_neg _ hp, List.find?_cons_of_neg _ hp]
        exact ih
    · have hp : ¬ p a = true := fun hpa => hq (h a hpa)
      rw [List.filter_cons_of_neg (by simpa using hq), List.find?_cons_of_neg _ hp]
      exact ih

lemma getAtt_upsert (att : List AttRecord) (d sid : Nat) (st : String) (d' sid' : Nat) :
    getAtt (upsert att d sid st) d' sid' =
      if d' = d ∧ sid' = sid then some st else getAtt att d' sid' := by
  rw [getAtt, upsert, List.find?_append]
  split
  · rename_i h
    obtain ⟨h1, h2⟩ := h
    subst h1; subst h2
    have hnone : (att.filter (fun r => !(r.date == d' && r.student_id == sid'))).find?
        (fun r => r.date == d' && r.student_id == sid') = none := by
      rw [List.find?_eq_none]
      intro x hx
      rw [List.mem_filter] at hx
      intro hcon
      have h2 := hx.2
      rw [hcon] at h2
      simp at h2
    rw [hnone]
    simp [List.find?]
  · rename_i h
    have hsingle : (List.find? (fun r => r.date == d' && r.student_id == sid')
        [(⟨d, sid, st⟩ : AttRecord)]) = none := by
      rw [List.find?_cons_of_neg, List.find?_nil]
      intro hcon
      simp only [Bool.and_eq_true, beq_iff_eq] at hcon
      exact h ⟨hcon.1.symm, hcon.2.symm⟩
    rw [hsingle, Option.or_none, find?_filter_eq]
    · rfl
    · intro x hx
      simp only [Bool.and_eq_true, beq_iff_eq] at hx
      obtain ⟨hx1, hx2⟩ := hx
      by_cases hd : x.date = d
      · have hs : x.student_id ≠ sid := by
          intro hs
          exact h ⟨by omega, by omega⟩
        simp [hs]
      · simp [hd]

lemma uniqueKeys_upsert (att : List AttRecord) (d sid : Nat) (st : String)
    (h : uniqueKeys att) : uniqueKeys (upsert att d sid st) := by
  rw [upsert, uniqueKeys, List.pairwise_append]
  refine ⟨h.filter _, List.pairwise_singleton _ _, ?_⟩
  intro a ha b hb
  rw [List.mem_filter] at ha
  rw [List.mem_singleton] at hb
  subst hb
  intro hcon
  have h2 := ha.2
  simp only [hcon.1, hcon.2, beq_self_eq_true, Bool.and_self, Bool.not_true] at h2
  exact absurd h2 (by simp)

lemma statusesOK_upsert (att : List AttRecord) (d sid : Nat) (st : String)
    (h : statusesOK att) (hst : st = "P" ∨ st = "A" ∨ st = "N/C") :
    statusesOK (upsert att d sid st) := by
  intro r hr
  rw [upsert, List.mem_append] at hr
  rcases hr with hr | hr
  · exact h r (List.mem_of_mem_filter hr)
  · rw [List.mem_singleton] at hr
    subst hr
    exact hst

lemma uniqueKeys_foldl_nc (roster : List Nat) (d : Nat) :
    ∀ att, uniqueKeys att →
      uniqueKeys (roster.foldl (fun a sid => upsert a d sid "N/C") att) := by
  induction roster with
  | nil => exact fun att h => h
  | cons x l ih => exact fun att h => ih _ (uniqueKeys_upsert _ _ _ _ h)

lemma uniqueKeys_foldl_ps (ps : List (Nat × String)) (d : Nat) :
    ∀ att, uniqueKeys att →
      uniqueKeys (ps.foldl (fun a p => upsert a d p.1 p.2) att) := by
  induction ps with
  | nil => exact fun att h => h
  | cons x l ih => exact fun att h => ih _ (uniqueKeys_upsert _ _ _ _ h)

lemma uniqueKeys_saveAttendance (att : List AttRecord) (d : Nat) (roster : List Nat)
    (nc : Bool) (ps : List (Nat × String)) (h : uniqueKeys att) :
    uniqueKeys (saveAttendance att d roster nc ps) := by
  rw [saveAttendance]
  split
  · exact uniqueKeys_foldl_nc roster d att h
  · exact uniqueKeys_foldl_ps ps d att h

lemma uniqueKeys_applyMutOp (att : List AttRecord) (op : MutOp) (h : uniqueKeys att) :
    uniqueKeys (applyMutOp att op) := by
  cases op with
  | save d roster nc ps => exact uniqueKeys_saveAttendance att d roster nc ps h
  | delStudent sid => exact h.filter _

lemma uniqueKeys_foldl_ops (ops : List MutOp) :
    ∀ att, uniqueKeys att → uniqueKeys (ops.foldl applyMutOp att) := by
  induction ops with
  | nil => exact fun att h => h
  | cons op l ih => exact fun att h => ih _ (uniqueKeys_applyMutOp att op h)

lemma upsert_upsert (att : List AttRecord) (d sid : Nat) (st1 st2 : String) :
    upsert (upsert att d sid st1) d sid st2 = upsert att d sid st2 := by
  rw [upsert, upsert, upsert, List.filter_append]
  have h2 : List.filter (fun r => !(r.date == d && r.student_id == sid))
      [(⟨d, sid, st1⟩ : AttRecord)] = [] := by simp
  rw [h2, List.append_nil, List.filter_filter]
  congr 1
  exact List.filter_congr (fun x _ => Bool.and_self _)

lemma filter_key_upsert (att : List AttRecord) (d sid : Nat) (st : String) :
    (upsert att d sid st).filter (fun r => r.date == d && r.student_id == sid) =
      [⟨d, sid, st⟩] := by
  rw [upsert, List.filter_append, List.filter_filter]
  simp

lemma getAtt_foldl_nc (d : Nat) : ∀ (roster : List Nat) (att : List AttRecord) (d' sid' : Nat),
    getAtt (roster.foldl (fun a sid => upsert a d sid "N/C") att) d' sid' =
      if d' = d ∧ sid' ∈ roster then some "N/C" else getAtt att d' sid' := by
  intro roster
  induction roster with
  | nil =>
    intro att d' sid'
    simp
  | cons x l ih =>
    intro att d' sid'
    rw [List.foldl_cons, ih, getAtt_upsert]
    by_cases h1 : d' = d ∧ sid' ∈ l
    · rw [if_pos h1, if_pos ⟨h1.1, List.mem_cons_of_mem _ h1.2⟩]
    · rw [if_neg h1]
      by_cases h2 : d' = d ∧ sid' = x
      · rw [if_pos h2, if_pos ⟨h2.1, by rw [h2.2]; exact List.mem_cons_self _ _⟩]
      · rw [if_neg h2, if_neg (by rw [List.mem_cons]; tauto)]

lemma foldl_nc_eq (d : Nat) : ∀ (roster : List Nat), roster.Nodup → ∀ att : List AttRecord,
    roster.foldl (fun a sid => upsert a d sid "N/C") att =
      att.filter (fun r => !(r.date == d && roster.contains r.student_id)) ++
        roster.map (fun sid => (⟨d, sid, "N/C"⟩ : AttRecord)) := by
  intro roster
  induction roster with
  | nil =>
    intro _ att
    simp
  | cons x l ih =>
    intro hnd att
    rw [List.foldl_cons, ih (List.Nodup.of_cons hnd) (upsert att d x "N/C"), upsert,
        List.filter_append]
    have hx : x ∉ l := (List.nodup_cons.mp hnd).1
    have hsing : List.filter (fun r => !(r.date == d && l.contains r.student_id))
        [(⟨d, x, "N/C"⟩ : AttRecord)] = [⟨d, x, "N/C"⟩] := by
      simp [hx]
    rw [hsing, List.filter_filter]
    have hpred : ∀ r : AttRecord,
        ((!(r.date == d && l.contains r.student_id)) && (!(r.date == d && r.student_id == x)))
          = (!(r.date == d && (x :: l).contains r.student_id)) := by
      intro r
      rw [List.contains_cons]
      cases hA : (r.date == d) <;> cases hB : (l.contains r.student_id) <;>
        cases hC : (r.student_id == x) <;> simp [hA, hB, hC]
    rw [List.filter_congr (fun r _ => hpred r)]
    simp [List.append_assoc]

/-- C4: with the no-session flag set, saving writes exactly one `N/C` record
per roster student for the given date, overwriting any prior statuses for
those keys, regardless of the per-student status input, and touches no other
`(date, student)` key. -/
theorem C4_no_session_save (att : List AttRecord) (d : Nat) (roster : List Nat)
    (ps : List (Nat × String)) (hnd : roster.Nodup) :
    (∀ ps', saveAttendance att d roster true ps' = saveAttendance att d roster true ps) ∧
    (∀ sid ∈ roster, getAtt (saveAttendance att d roster true ps) d sid = some "N/C") ∧
    (∀ d' sid', (d' ≠ d ∨ sid' ∉ roster) →
      getAtt (saveAttendance att d roster true ps) d' sid' = getAtt att d' sid') ∧
    ((saveAttendance att d roster true ps).filter
        (fun r => r.date == d && roster.contains r.student_id) =
      roster.map (fun sid => ⟨d, sid, "N/C"⟩)) ∧
    ((saveAttendance att d roster true ps).filter
        (fun r => r.date == d && roster.contains r.student_id)).length = roster.length := by
  have hsave : saveAttendance att d roster true ps =
      roster.foldl (fun a sid => upsert a d sid "N/C") att := by
    rw [saveAttendance, if_pos rfl]
  have hfilter : (saveAttendance att d roster true ps).filter
      (fun r => r.date == d && roster.contains r.student_id) =
      roster.map (fun sid => (⟨d, sid, "N/C"⟩ : AttRecord)) := by
    rw [hsave, foldl_nc_eq d roster hnd att, List.filter_append, List.filter_filter]
    have h1 : att.filter (fun a => (a.date == d && roster.contains a.student_id) &&
        !(a.date == d && roster.contains a.student_id)) = [] := by
      rw [List.filter_eq_nil_iff]
      intro a _
      simp
    have h2 : (roster.map (fun sid => (⟨d, sid, "N/C"⟩ : AttRecord))).filter
        (fun r => r.date == d && roster.contains r.student_id) =
        roster.map (fun sid => (⟨d, sid, "N/C"⟩ : AttRecord)) := by
      rw [List.filter_eq_self]
      intro a ha
      rw [List.mem_map] at ha
      obtain ⟨sid, hsid, rfl⟩ := ha
      simp [hsid]
    rw [h1, h2, List.nil_append]
  refine ⟨fun ps' => by rw [saveAttendance, saveAttendance, if_pos rfl, if_pos rfl], ?_, ?_,
    hfilter,
    by rw [hfilter, List.length_map]⟩
  · intro sid hsid
    rw [hsave, getAtt_foldl_nc, if_pos ⟨rfl, hsid⟩]
  · intro d' sid' h
    rw [hsave, getAtt_foldl_nc, if_neg (by tauto)]

/-- Witness for C4: a class with roster `{1, 2, 3}` saved as no-session writes
exactly 3 records, all `N/C`, overwriting a prior `P`/`A`. -/
theorem C4_no_session_save_witness :
    (saveAttendance [⟨6, 1, "P"⟩, ⟨6, 2, "A"⟩] 6 [1, 2, 3] true []).filter
        (fun r => r.date == 6 && [1, 2, 3].contains r.student_id) =
      [⟨6, 1, "N/C"⟩, ⟨6, 2, "N/C"⟩, ⟨6, 3, "N/C"⟩] := by
  have h := (C4_no_session_save [⟨6, 1, "P"⟩, ⟨6, 2, "A"⟩] 6 [1, 2, 3] []
    (by decide)).2.2.2.1
  simpa using h

lemma statusesOK_foldl_nc (d : Nat) : ∀ (roster : List Nat) (att : List AttRecord),
    statusesOK att → statusesOK (roster.foldl (fun a sid => upsert a d sid "N/C") att) := by
  intro roster
  induction roster with
  | nil => exact fun att h => h
  | cons x l ih => exact fun att h => ih _ (statusesOK_upsert _ _ _ _ h (Or.inr (Or.inr rfl)))

lemma statusesOK_foldl_ps (d : Nat) : ∀ (ps : List (Nat × String)),
    (∀ p ∈ ps, p.2 = "P" ∨ p.2 = "A") → ∀ att, statusesOK att →
      statusesOK (ps.foldl (fun a p => upsert a d p.1 p.2) att) := by
  intro ps
  induction ps with
  | nil => exact fun _ att h => h
  | cons x l ih =>
    intro hps att h
    refine ih (fun p hp => hps p (List.mem_cons_of_mem _ hp)) _
      (statusesOK_upsert _ _ _ _ h ?_)
    rcases hps x (List.mem_cons_self _ _) with h1 | h1
    · exact Or.inl h1
    · exact Or.inr (Or.inl h1)

lemma statusesOK_applyMutOp (att : List AttRecord) (op : MutOp) (hop : validOp op)
    (h : statusesOK att) : statusesOK (applyMutOp att op) := by
  cases op with
  | save d roster nc ps =>
    show statusesOK (saveAttendance att d roster nc ps)
    rw [saveAttendance]
    cases nc with
    | false =>
      rw [if_neg (by simp)]
      exact statusesOK_foldl_ps d ps (hop rfl) att h
    | true =>
      rw [if_pos rfl]
      exact statusesOK_foldl_nc d roster att h
  | delStudent sid =>
    intro r hr
    exact h r (List.mem_of_mem_filter hr)

lemma statusesOK_foldl_ops (ops : List MutOp) : ∀ att, statusesOK att →
    (∀ op ∈ ops, validOp op) → statusesOK (ops.foldl applyMutOp att) := by
  induction ops with
  | nil => exact fun att h _ => h
  | cons op l ih =>
    intro att h hval
    exact ih _ (statusesOK_applyMutOp att op (hval op (List.mem_cons_self _ _)) h)
      (fun o ho => hval o (List.mem_cons_of_mem _ ho))

/-- C10: starting from the empty table, every sequence of mutating operations
(per-student saves, whose form radio offers only `P` and `A`; no-session saves,
which write only `N/C`; and student-deletion cascades) leaves every stored
status in `{P, A, N/C}`; in particular the synthetic missed value `A (M)` is
never persisted. -/
theorem C10_status_domain (ops : List MutOp) (hval : ∀ op ∈ ops, validOp op) :
    statusesOK (ops.foldl applyMutOp []) ∧
    ∀ r ∈ ops.foldl applyMutOp [], r.status ≠ "A (M)" := by
  have h := statusesOK_foldl_ops ops [] (fun r hr => absurd hr (List.not_mem_nil r)) hval
  refine ⟨h, fun r hr => ?_⟩
  rcases h r hr with h1 | h1 | h1 <;> rw [h1] <;> decide

/-- Witness for C10 at a concrete operation sequence. -/
theorem C10_status_domain_witness :
    statusesOK ([MutOp.save 6 [1, 2] true [], MutOp.save 13 [1, 2] false [(1, "P"), (2, "A")],
      MutOp.delStudent 2].foldl applyMutOp []) :=
  (C10_status_domain
    [MutOp.save 6 [1, 2] true [], MutOp.save 13 [1, 2] false [(1, "P"), (2, "A")],
      MutOp.delStudent 2]
    (by
      intro op hop
      rcases List.mem_cons.mp hop with rfl | hop
      · exact fun hcon => absurd hcon (by simp)
      rcases List.mem_cons.mp hop with rfl | hop
      · intro _ p hp
        rcases List.mem_cons.mp hp with rfl | hp
        · exact Or.inl rfl
        rcases List.mem_cons.mp hp with rfl | hp
        · exact Or.inr rfl
        · exact absurd hp (List.not_mem_nil p)
      rcases List.mem_cons.mp hop with rfl | hop
      · exact trivial
      · exact absurd hop (List.not_mem_nil op))).1

/-- C5: any sequence of save (and cascade-delete) operations starting from the
empty table maintains at most one attendance row per `(date, student_id)` key;
saving `P` for a pair and then `A` for the same pair via the per-student save
path leaves exactly one row for that key, with final value `A`, equals a single
upsert of `A`, and leaves the rows of every other key untouched. -/
theorem C5_upsert_invariant (ops : List MutOp) (att : List AttRecord)
    (d sid : Nat) (roster : List Nat) :
    uniqueKeys (ops.foldl applyMutOp []) ∧
    ((saveAttendance (saveAttendance att d roster false [(sid, "P")]) d roster false
        [(sid, "A")]).filter (fun r => r.date == d && r.student_id == sid) =
      [⟨d, sid, "A"⟩]) ∧
    (saveAttendance (saveAttendance att d roster false [(sid, "P")]) d roster false
        [(sid, "A")] = upsert att d sid "A") ∧
    (∀ d' sid', ¬(d' = d ∧ sid' = sid) →
      getAtt (saveAttendance (saveAttendance att d roster false [(sid, "P")]) d roster
          false [(sid, "A")]) d' sid' = getAtt att d' sid') := by
  have hPA : saveAttendance (saveAttendance att d roster false [(sid, "P")]) d roster false
      [(sid, "A")] = upsert att d sid "A" := by
    rw [saveAttendance, saveAttendance]
    simp only [Bool.false_eq_true, if_false, List.foldl_cons, List.foldl_nil]
    exact upsert_upsert att d sid "P" "A"
  refine ⟨uniqueKeys_foldl_ops ops [] List.Pairwise.nil, ?_, hPA, ?_⟩
  · rw [hPA]
    exact filter_key_upsert att d sid "A"
  · intro d' sid' h
    rw [hPA, getAtt_upsert, if_neg h]

/-- Witness for C5 at concrete inputs. -/
theorem C5_upsert_invariant_witness :
    ((saveAttendance (saveAttendance [⟨13, 2, "P"⟩] 6 [7] false [(7, "P")]) 6 [7] false
        [(7, "A")]).filter (fun r => r.date == 6 && r.student_id == 7) =
      [⟨6, 7, "A"⟩]) ∧
    getAtt (saveAttendance (saveAttendance [⟨13, 2, "P"⟩] 6 [7] false [(7, "P")]) 6 [7]
        false [(7, "A")]) 13 2 = getAtt [⟨13, 2, "P"⟩] 13 2 :=
  ⟨(C5_upsert_invariant [] [⟨13, 2, "P"⟩] 6 7 [7]).2.1,
   (C5_upsert_invariant [] [⟨13, 2, "P"⟩] 6 7 [7]).2.2.2 13 2 (by omega)⟩

/-! ## Students, classes and their operations -/

/-- Row of the `students` table. -/
structure Student where
  id : Nat
  name : String
  class_id : Nat
  order_index : Int
deriving DecidableEq

/-- Row of the `classes` table. -/
structure Cls where
  id : Nat
  name : String
  teacher_name : String
deriving DecidableEq

/-- Database state: the three tables the claims are about. -/
structure DB where
  classes : List Cls
  students : List Student
  attendance : List AttRecord
deriving DecidableEq

/-- `SELECT COALESCE(MAX(order_index), 0) FROM students WHERE class_id = ?`. -/
def maxOrderIn (students : List Student) (cid : Nat) : Int :=
  match (students.filter (fun s => s.class_id == cid)).map (fun s => s.order_index) with
  | [] => 0
  | x :: xs => xs.foldl max x

/-- `promote_student`: move the student to the new class, with `order_index`
one past the destination class's current maximum (the maximum is read before
the update). -/
def promote_student (db : DB) (sid newCid : Nat) : DB :=
  let new_order := maxOrderIn db.students newCid + 1
  { db with students := db.students.map (fun s =>
      if s.id == sid then { s with class_id := newCid, order_index := new_order } else s) }

/-- Error message of `delete_class` when students are still assigned. -/
def deleteClassError (class_name : String) (student_count : Nat) : String :=
  "Cannot delete class '" ++ class_name ++ "': " ++ toString student_count ++
    " student(s) are still assigned to it. Please move or delete students first."

/-- `delete_class`: counts the assigned students first; if there are any, no
delete is attempted and an error message naming the count is surfaced;
otherwise the class row is deleted.  Returns the new state, the success flag,
and the error message. -/
def delete_class (db : DB) (cid : Nat) (class_name : String) : DB × Bool × Option String :=
  let student_count := (db.students.filter (fun s => s.class_id == cid)).length
  if 0 < student_count then
    (db, false, some (deleteClassError class_name student_count))
  else
    ({ db with classes := db.classes.filter (fun c => !(c.id == cid)) }, true, none)

lemma foldl_max_mem (x : Int) (xs : List Int) : xs.foldl max x ∈ x :: xs := by
  induction xs generalizing x with
  | nil => exact List.mem_singleton.mpr rfl
  | cons y ys ih =>
    rw [List.foldl_cons]
    rcases List.mem_cons.mp (ih (max x y)) with h | h
    · rcases max_choice x y with h2 | h2
      · rw [h, h2]
        exact List.mem_cons_self _ _
      · rw [h, h2]
        exact List.mem_cons_of_mem _ (List.mem_cons_self _ _)
    · exact List.mem_cons_of_mem _ (List.mem_cons_of_mem _ h)

lemma le_foldl_max (x : Int) (xs : List Int) : ∀ z ∈ x :: xs, z ≤ xs.foldl max x := by
  induction xs generalizing x with
  | nil =>
    intro z hz
    rw [List.mem_singleton] at hz
    rw [hz, List.foldl_nil]
  | cons y ys ih =>
    intro z hz
    rw [List.foldl_cons]
    have hxy : max x y ≤ ys.foldl max (max x y) := ih (max x y) _ (List.mem_cons_self _ _)
    rcases List.mem_cons.mp hz with rfl | hz
    · exact le_trans (le_max_left _ _) hxy
    rcases List.mem_cons.mp hz with rfl | hz
    · exact le_trans (le_max_right _ _) hxy
    · exact ih (max x y) z (List.mem_cons_of_mem _ hz)

lemma maxOrderIn_empty (students : List Student) (cid : Nat)
    (h : students.filter (fun s => s.class_id == cid) = []) :
    maxOrderIn students cid = 0 := by
  simp only [maxOrderIn, h, List.map_nil]

lemma maxOrderIn_ge (students : List Student) (cid : Nat) :
    ∀ t ∈ students.filter (fun s => s.class_id == cid),
      t.order_index ≤ maxOrderIn students cid := by
  intro t ht
  simp only [maxOrderIn]
  cases hl : (students.filter (fun s => s.class_id == cid)).map (fun s => s.order_index) with
  | nil =>
    rw [List.map_eq_nil_iff] at hl
    rw [hl] at ht
    cases ht
  | cons x xs =>
    have hmem : t.order_index ∈ x :: xs := by
      rw [← hl]
      exact List.mem_map_of_mem _ ht
    exact le_foldl_max x xs _ hmem

lemma maxOrderIn_mem (students : List Student) (cid : Nat)
    (h : students.filter (fun s => s.class_id == cid) ≠ []) :
    ∃ t ∈ students.filter (fun s => s.class_id == cid),
      maxOrderIn students cid = t.order_index := by
  simp only [maxOrderIn]
  cases hl : (students.filter (fun s => s.class_id == cid)).map (fun s => s.order_index) with
  | nil => exact absurd (List.map_eq_nil_iff.mp hl) h
  | cons x xs =>
    have hmem : xs.foldl max x ∈ x :: xs := foldl_max_mem x xs
    rw [← hl, List.mem_map] at hmem
    obtain ⟨t, ht, hto⟩ := hmem
    exact ⟨t, ht, hto.symm⟩

/-- C7: `promote_student` leaves the whole attendance table (hence every
attendance record of the moved student and of everyone else) unchanged, leaves
the classes table and all other students' rows unchanged, changes only the
moved student's `class_id` and `order_index`, and sets the new `order_index`
to one past the maximum `order_index` among the destination class's current
students, the maximum being 0 when the destination class is empty. -/
theorem C7_promote_student (db : DB) (sid newCid : Nat) :
    ((promote_student db sid newCid).attendance = db.attendance) ∧
    ((promote_student db sid newCid).classes = db.classes) ∧
    (∀ s ∈ db.students, s.id ≠ sid → s ∈ (promote_student db sid newCid).students) ∧
    (∀ s' ∈ (promote_student db sid newCid).students, s'.id ≠ sid → s' ∈ db.students) ∧
    (∀ s ∈ db.students, s.id = sid →
      { s with class_id := newCid, order_index := maxOrderIn db.students newCid + 1 } ∈
        (promote_student db sid newCid).students) ∧
    (db.students.filter (fun s => s.class_id == newCid) = [] →
      maxOrderIn db.students newCid = 0) ∧
    (∀ t ∈ db.students.filter (fun s => s.class_id == newCid),
      t.order_index ≤ maxOrderIn db.students newCid) ∧
    (db.students.filter (fun s => s.class_id == newCid) ≠ [] →
      ∃ t ∈ db.students.filter (fun s => s.class_id == newCid),
        maxOrderIn db.students newCid = t.order_index) := by
  refine ⟨rfl, rfl, ?_, ?_, ?_, maxOrderIn_empty db.students newCid,
    maxOrderIn_ge db.students newCid, maxOrderIn_mem db.students newCid⟩
  · intro s hs hne
    rw [show (promote_student db sid newCid).students = db.students.map (fun s =>
        if s.id == sid then
          { s with class_id := newCid, order_index := maxOrderIn db.students newCid + 1 }
        else s) from rfl, List.mem_map]
    refine ⟨s, hs, ?_⟩
    show (if (s.id == sid) = true then
        { s with class_id := newCid, order_index := maxOrderIn db.students newCid + 1 }
      else s) = s
    rw [if_neg (by simpa using hne)]
  · intro s' hs' hne
    rw [show (promote_student db sid newCid).students = db.students.map (fun s =>
        if s.id == sid then
          { s with class_id := newCid, order_index := maxOrderIn db.students newCid + 1 }
        else s) from rfl, List.mem_map] at hs'
    obtain ⟨s, hs, heq⟩ := hs'
    by_cases hid : s.id = sid
    · rw [if_pos (by simpa using hid)] at heq
      rw [← heq] at hne
      exact absurd hid hne
    · rw [if_neg (by simpa using hid)] at heq
      rw [← heq]
      exact hs
  · intro s hs hid
    rw [show (promote_student db sid newCid).students = db.students.map (fun s =>
        if s.id == sid then
          { s with class_id := newCid, order_index := maxOrderIn db.students newCid + 1 }
        else s) from rfl, List.mem_map]
    refine ⟨s, hs, ?_⟩
    show (if (s.id == sid) = true then
        { s with class_id := newCid, order_index := maxOrderIn db.students newCid + 1 }
      else s) = { s with class_id := newCid, order_index := maxOrderIn db.students newCid + 1 }
    rw [if_pos (by simpa using hid)]

/-- Witness for C7 at a concrete state: moving Ann (id 1) to class 2 keeps the
attendance table and gives her order index `max(5) + 1 = 6`. -/
theorem C7_promote_student_witness :
    (promote_student ⟨[], [⟨1, "Ann", 1, 3⟩, ⟨2, "Ben", 2, 5⟩], [⟨6, 1, "P"⟩]⟩ 1 2).attendance =
      [⟨6, 1, "P"⟩] ∧
    ({ id := 1, name := "Ann", class_id := 2,
       order_index := maxOrderIn [⟨1, "Ann", 1, 3⟩, ⟨2, "Ben", 2, 5⟩] 2 + 1 } : Student) ∈
      (promote_student ⟨[], [⟨1, "Ann", 1, 3⟩, ⟨2, "Ben", 2, 5⟩], [⟨6, 1, "P"⟩]⟩ 1 2).students :=
  ⟨(C7_promote_student ⟨[], [⟨1, "Ann", 1, 3⟩, ⟨2, "Ben", 2, 5⟩], [⟨6, 1, "P"⟩]⟩ 1 2).1,
   (C7_promote_student ⟨[], [⟨1, "Ann", 1, 3⟩, ⟨2, "Ben", 2, 5⟩], [⟨6, 1, "P"⟩]⟩ 1 2).2.2.2.2.1
     ⟨1, "Ann", 1, 3⟩ (List.mem_cons_self _ _) rfl⟩

lemma length_filter_ne_id (l : List Cls) (cid : Nat) (hnd : (l.map (fun c => c.id)).Nodup)
    (c : Cls) (hc : c ∈ l) (hcid : c.id = cid) :
    (l.filter (fun c => !(c.id == cid))).length + 1 = l.length := by
  induction l with
  | nil => cases hc
  | cons a l ih =>
    rw [List.map_cons, List.nodup_cons] at hnd
    rcases List.mem_cons.mp hc with rfl | hc
    · rw [List.filter_cons_of_neg (by simp [hcid])]
      have hrest : l.filter (fun c => !(c.id == cid)) = l := by
        rw [List.filter_eq_self]
        intro b hb
        have hbne : b.id ≠ cid := by
          intro hb2
          have hbmem : b.id ∈ l.map (fun c => c.id) := List.mem_map_of_mem _ hb
          rw [hb2, ← hcid] at hbmem
          exact hnd.1 hbmem
        simp [hbne]
      rw [hrest, List.length_cons]
    · by_cases ha : a.id = cid
      · exact absurd (by rw [ha, ← hcid]; exact List.mem_map_of_mem _ hc) hnd.1
      · rw [List.filter_cons_of_pos (by simp [ha]), List.length_cons, List.length_cons]
        have := ih hnd.2 hc
        omega

/-- C8: deleting a class with at least one assigned student is blocked before
any delete is attempted — the whole state is unchanged and the surfaced error
message names the count of blocking students; deleting a class with no
assigned students succeeds, removes exactly that class row, and touches
nothing else. -/
theorem C8_delete_class (db : DB) (cid : Nat) (cname : String)
    (hnd : (db.classes.map (fun c => c.id)).Nodup) :
    (0 < (db.students.filter (fun s => s.class_id == cid)).length →
      delete_class db cid cname =
        (db, false, some (deleteClassError cname
          (db.students.filter (fun s => s.class_id == cid)).length))) ∧
    ((db.students.filter (fun s => s.class_id == cid)).length = 0 →
      (delete_class db cid cname).2.1 = true ∧
      (delete_class db cid cname).2.2 = none ∧
      (delete_class db cid cname).1.students = db.students ∧
      (delete_class db cid cname).1.attendance = db.attendance ∧
      (∀ c ∈ db.classes, c.id ≠ cid → c ∈ (delete_class db cid cname).1.classes) ∧
      (∀ c ∈ (delete_class db cid cname).1.classes, c ∈ db.classes ∧ c.id ≠ cid) ∧
      (∀ c ∈ db.classes, c.id = cid →
        (delete_class db cid cname).1.classes.length + 1 = db.classes.length)) := by
  constructor
  · intro h
    rw [delete_class, if_pos h]
  · intro h
    have hneg : ¬ 0 < (db.students.filter (fun s => s.class_id == cid)).length := by omega
    rw [delete_class, if_neg hneg]
    refine ⟨rfl, rfl, rfl, rfl, ?_, ?_, ?_⟩
    · intro c hc hne
      rw [List.mem_filter]
      exact ⟨hc, by simpa using hne⟩
    · intro c hc
      rw [List.mem_filter] at hc
      exact ⟨hc.1, by simpa using hc.2⟩
    · intro c hc hcid
      exact length_filter_ne_id db.classes cid hnd c hc hcid

/-- Witness for C8 at a concrete state: deleting non-empty class 1 is blocked
with a message naming 1 blocking student; deleting empty class 2 succeeds. -/
theorem C8_delete_class_witness :
    delete_class ⟨[⟨1, "A", "T"⟩, ⟨2, "B", "U"⟩], [⟨1, "Ann", 1, 0⟩], []⟩ 1 "A" =
      (⟨[⟨1, "A", "T"⟩, ⟨2, "B", "U"⟩], [⟨1, "Ann", 1, 0⟩], []⟩, false,
        some (deleteClassError "A" 1)) ∧
    (delete_class ⟨[⟨1, "A", "T"⟩, ⟨2, "B", "U"⟩], [⟨1, "Ann", 1, 0⟩], []⟩ 2 "B").2.1 = true ∧
    (delete_class ⟨[⟨1, "A", "T"⟩, ⟨2, "B", "U"⟩], [⟨1, "Ann", 1, 0⟩], []⟩ 2 "B").1.classes.length
      + 1 = 2 :=
  ⟨(C8_delete_class ⟨[⟨1, "A", "T"⟩, ⟨2, "B", "U"⟩], [⟨1, "Ann", 1, 0⟩], []⟩ 1 "A"
      (by decide)).1 (by decide),
   ((C8_delete_class ⟨[⟨1, "A", "T"⟩, ⟨2, "B", "U"⟩], [⟨1, "Ann", 1, 0⟩], []⟩ 2 "B"
      (by decide)).2 (by decide)).1,
   ((C8_delete_class ⟨[⟨1, "A", "T"⟩, ⟨2, "B", "U"⟩], [⟨1, "Ann", 1, 0⟩], []⟩ 2 "B"
      (by decide)).2 (by decide)).2.2.2.2.2.2 ⟨2, "B", "U"⟩
      (List.mem_cons_of_mem _ (List.mem_cons_self _ _)) rfl⟩

/-! ## Roster ordering (`move_student_order`) -/

/-- `UPDATE students SET order_index = ? WHERE id = ?`. -/
def updateOrder (students : List Student) (sid : Nat) (o : Int) : List Student :=
  students.map (fun s => if s.id == sid then { s with order_index := o } else s)

/-- Swap step of `move_student_order` once the clamped target index is known:
when it differs from the current index, the two ids are read off the roster id
list, their `order_index` values are read from the first matching roster rows,
and the two UPDATEs exchange them. -/
def moveSwapAux (table roster : List Student) (ids : List Nat)
    (current_index target_index : Nat) : List Student :=
  if current_index ≠ target_index then
    updateOrder
      (updateOrder table (ids.getD current_index 0)
        (((roster.find? (fun s => s.id == ids.getD target_index 0)).map
          (fun s => s.order_index)).getD 0))
      (ids.getD target_index 0)
      (((roster.find? (fun s => s.id == ids.getD current_index 0)).map
        (fun s => s.order_index)).getD 0)
  else table

/-- `move_student_order(student_id, direction, df_students_current_class)`:
`roster` is the class's roster (sorted by `(order_index, name)` by the caller)
and `table` the whole students table acted on by the UPDATEs.  An id not in
the roster is a silent no-op (the `ValueError` is caught), as is an unknown
direction; for `up` the target index is `max(0, i-1)` (natural subtraction),
for `down` it is `min(len-1, i+1)`. -/
def move_student_order (table : List Student) (student_id : Nat) (direction : String)
    (roster : List Student) : List Student :=
  match (roster.map (fun s => s.id)).findIdx? (fun x => x == student_id) with
  | none => table
  | some current_index =>
    if direction = "up" then
      moveSwapAux table roster (roster.map (fun s => s.id)) current_index (current_index - 1)
    else if direction = "down" then
      moveSwapAux table roster (roster.map (fun s => s.id)) current_index
        (min (roster.length - 1) (current_index + 1))
    else table

lemma move_none (table roster : List Student) (sid : Nat) (dir : String)
    (h : (roster.map (fun s => s.id)).findIdx? (fun x => x == sid) = none) :
    move_student_order table sid dir roster = table := by
  unfold move_student_order
  rw [h]

lemma move_some (table roster : List Student) (sid : Nat) (dir : String) (i : Nat)
    (h : (roster.map (fun s => s.id)).findIdx? (fun x => x == sid) = some i) :
    move_student_order table sid dir roster =
      if dir = "up" then
        moveSwapAux table roster (roster.map (fun s => s.id)) i (i - 1)
      else if dir = "down" then
        moveSwapAux table roster (roster.map (fun s => s.id)) i
          (min (roster.length - 1) (i + 1))
      else table := by
  unfold move_student_order
  rw [h]

lemma findIdx?_ids_none (roster : List Student) (sid : Nat)
    (h : ∀ s ∈ roster, s.id ≠ sid) :
    (roster.map (fun s => s.id)).findIdx? (fun x => x == sid) = none := by
  rw [List.findIdx?_eq_none_iff]
  intro x hx
  rw [List.mem_map] at hx
  obtain ⟨s, hs, rfl⟩ := hx
  simpa using h s hs

lemma findIdx?_ids_of_get_aux : ∀ (roster : List Student),
    (roster.map (fun s => s.id)).Nodup →
    ∀ (sid i : Nat) (hi : i < roster.length), (roster.get ⟨i, hi⟩).id = sid →
    ∀ k, (roster.map (fun s => s.id)).findIdx? (fun x => x == sid) k = some (i + k) := by
  intro roster
  induction roster with
  | nil =>
    intro _ sid i hi hv k
    exact absurd hi (by simp)
  | cons a t ih =>
    intro hnd sid i hi hv k
    rw [List.map_cons, List.nodup_cons] at hnd
    rw [List.map_cons, List.findIdx?_cons]
    cases i with
    | zero =>
      rw [if_pos (show (a.id == sid) = true from beq_iff_eq.mpr hv)]
      norm_num
    | succ n =>
      have hn : n < t.length := by
        rw [List.length_cons] at hi
        omega
      have hvn : (t.get ⟨n, hn⟩).id = sid := hv
      have ha : (a.id == sid) = false := by
        rw [beq_eq_false_iff_ne]
        intro hcon
        apply hnd.1
        rw [hcon, ← hvn]
        exact List.mem_map_of_mem _ (List.get_mem _ _ _)
      rw [ha, if_neg Bool.false_ne_true, ih hnd.2 sid n hn hvn (k + 1)]
      congr 1
      omega

lemma findIdx?_ids_of_get (roster : List Student) (hR : (roster.map (fun s => s.id)).Nodup)
    (sid : Nat) (i : Nat) (hi : i < roster.length) (hv : (roster.get ⟨i, hi⟩).id = sid) :
    (roster.map (fun s => s.id)).findIdx? (fun x => x == sid) = some i := by
  have h := findIdx?_ids_of_get_aux roster hR sid i hi hv 0
  simpa using h

lemma findIdx?_ids_spec (roster : List Student) (sid i : Nat)
    (h : (roster.map (fun s => s.id)).findIdx? (fun x => x == sid) = some i) :
    ∃ hi : i < roster.length, (roster.get ⟨i, hi⟩).id = sid := by
  rw [List.findIdx?_eq_some_iff_getElem] at h
  obtain ⟨hlen, hp, _⟩ := h
  have hi : i < roster.length := by
    rw [List.length_map] at hlen
    exact hlen
  refine ⟨hi, ?_⟩
  rw [List.getElem_map] at hp
  rw [List.get_eq_getElem]
  simpa using hp

lemma find?_id_of_nodup (l : List Student) (hnd : (l.map (fun s => s.id)).Nodup)
    (r : Student) (hr : r ∈ l) : l.find? (fun s => s.id == r.id) = some r := by
  induction l with
  | nil => cases hr
  | cons a l ih =>
    rw [List.map_cons, List.nodup_cons] at hnd
    rcases List.mem_cons.mp hr with rfl | hr
    · rw [List.find?_cons_of_pos _ (by simp)]
    · have ha : ¬ (a.id == r.id) = true := by
        simp only [beq_iff_eq]
        intro hcon
        apply hnd.1
        rw [hcon]
        exact List.mem_map_of_mem _ hr
      rw [List.find?_cons_of_neg]
      · exact ih hnd.2 hr
      · exact ha

lemma filter_id_eq_singleton (l : List Student) (hnd : (l.map (fun s => s.id)).Nodup)
    (r : Student) (hr : r ∈ l) : l.filter (fun s => s.id == r.id) = [r] := by
  induction l with
  | nil => cases hr
  | cons a l ih =>
    rw [List.map_cons, List.nodup_cons] at hnd
    rcases List.mem_cons.mp hr with rfl | hr
    · rw [List.filter_cons_of_pos (by simp)]
      have hrest : l.filter (fun s => s.id == r.id) = [] := by
        rw [List.filter_eq_nil_iff]
        intro b hb hcon
        apply hnd.1
        rw [← (beq_iff_eq.mp hcon)]
        exact List.mem_map_of_mem _ hb
      rw [hrest]
    · have ha : ¬ (a.id == r.id) = true := by
        simp only [beq_iff_eq]
        intro hcon
        apply hnd.1
        rw [hcon]
        exact List.mem_map_of_mem _ hr
      rw [List.filter_cons_of_neg]
      · exact ih hnd.2 hr
      · exact ha

lemma updateOrder_updateOrder (table : List Student) (a b : Nat) (oa ob : Int)
    (hab : a ≠ b) :
    updateOrder (updateOrder table a oa) b ob =
      table.map (fun s =>
        if s.id == a then { s with order_index := oa }
        else if s.id == b then { s with order_index := ob } else s) := by
  rw [updateOrder, updateOrder, List.map_map]
  apply List.map_congr_left
  intro s _
  simp only [Function.comp_apply]
  by_cases h1 : s.id = a
  · have h2 : s.id ≠ b := by
      rw [h1]
      exact hab
    simp [h1, h2, hab, Ne.symm hab]
  · by_cases h2 : s.id = b
    · simp [h1, h2, hab, Ne.symm hab]
    · simp [h1, h2, hab, Ne.symm hab]

lemma perm_pairs_swap (table : List Student) (hT : (table.map (fun s => s.id)).Nodup)
    (ra rb : Student) (hra : ra ∈ table) (hrb : rb ∈ table) (hab : ra.id ≠ rb.id)
    (hclass : ra.class_id = rb.class_id) :
    ((table.map (fun s =>
        if s.id == ra.id then { s with order_index := rb.order_index }
        else if s.id == rb.id then { s with order_index := ra.order_index }
        else s)).map (fun s => (s.class_id, s.order_index))).Perm
      (table.map (fun s => (s.class_id, s.order_index))) := by
  have h1 := List.filter_append_perm (fun s : Student => s.id == ra.id) table
  rw [filter_id_eq_singleton table hT ra hra] at h1
  have hnd1 : ((table.filter (fun x => !(x.id == ra.id))).map (fun s => s.id)).Nodup :=
    ((List.filter_sublist _).map _).nodup hT
  have hrb1 : rb ∈ table.filter (fun x => !(x.id == ra.id)) := by
    rw [List.mem_filter]
    refine ⟨hrb, ?_⟩
    simp only [Bool.not_eq_true', beq_eq_false_iff_ne, ne_eq]
    exact fun hcon => hab hcon.symm
  have h2 := List.filter_append_perm (fun s : Student => s.id == rb.id)
    (table.filter (fun x => !(x.id == ra.id)))
  rw [filter_id_eq_singleton _ hnd1 rb hrb1] at h2
  have hperm : table.Perm (ra :: rb ::
      (table.filter (fun x => !(x.id == ra.id))).filter (fun x => !(x.id == rb.id))) :=
    h1.symm.trans (h2.symm.cons ra)
  have hrest : ∀ s ∈ (table.filter (fun x => !(x.id == ra.id))).filter
      (fun x => !(x.id == rb.id)), s.id ≠ ra.id ∧ s.id ≠ rb.id := by
    intro s hs
    rw [List.mem_filter, List.mem_filter] at hs
    constructor
    · have := hs.1.2
      simp only [Bool.not_eq_true', beq_eq_false_iff_ne, ne_eq] at this
      exact this
    · have := hs.2
      simp only [Bool.not_eq_true', beq_eq_false_iff_ne, ne_eq] at this
      exact this
  have hstep1 := (hperm.map (fun s : Student =>
      if s.id == ra.id then { s with order_index := rb.order_index }
      else if s.id == rb.id then { s with order_index := ra.order_index }
      else s)).map (fun s : Student => (s.class_id, s.order_index))
  have hstep3 := (hperm.map (fun s : Student => (s.class_id, s.order_index))).symm
  have e1 : ((ra :: rb ::
      (table.filter (fun x => !(x.id == ra.id))).filter (fun x => !(x.id == rb.id))).map
        (fun s : Student =>
          if s.id == ra.id then { s with order_index := rb.order_index }
          else if s.id == rb.id then { s with order_index := ra.order_index }
          else s)).map (fun s : Student => (s.class_id, s.order_index)) =
      (ra.class_id, rb.order_index) :: (rb.class_id, ra.order_index) ::
        ((table.filter (fun x => !(x.id == ra.id))).filter (fun x => !(x.id == rb.id))).map
          (fun s : Student => (s.class_id, s.order_index)) := by
    rw [List.map_cons, List.map_cons, List.map_cons, List.map_cons]
    have hfa : (if (ra.id == ra.id) = true then { ra with order_index := rb.order_index }
        else if (ra.id == rb.id) = true then { ra with order_index := ra.order_index }
        else ra) = { ra with order_index := rb.order_index } := by
      rw [if_pos (by simp)]
    have hfb : (if (rb.id == ra.id) = true then { rb with order_index := rb.order_index }
        else if (rb.id == rb.id) = true then { rb with order_index := ra.order_index }
        else rb) = { rb with order_index := ra.order_index } := by
      rw [if_neg (by simp only [beq_iff_eq]; exact fun hcon => hab hcon.symm),
        if_pos (by simp)]
    rw [hfa, hfb]
    congr 2
    rw [List.map_map]
    apply List.map_congr_left
    intro s hs
    obtain ⟨hna, hnb⟩ := hrest s hs
    simp only [Function.comp_apply]
    rw [if_neg (by simpa using hna), if_neg (by simpa using hnb)]
  have e3 : ((ra :: rb ::
      (table.filter (fun x => !(x.id == ra.id))).filter (fun x => !(x.id == rb.id))).map
        (fun s : Student => (s.class_id, s.order_index))) =
      (ra.class_id, ra.order_index) :: (rb.class_id, rb.order_index) ::
        ((table.filter (fun x => !(x.id == ra.id))).filter (fun x => !(x.id == rb.id))).map
          (fun s : Student => (s.class_id, s.order_index)) := by
    rw [List.map_cons, List.map_cons]
  rw [e1] at hstep1
  rw [e3] at hstep3
  refine hstep1.trans (List.Perm.trans ?_ hstep3)
  rw [hclass]
  exact List.Perm.swap _ _ _

lemma moveSwapAux_eq (table roster : List Student) (i j : Nat)
    (hi : i < roster.length) (hj : j < roster.length) (hij : i ≠ j)
    (hR : (roster.map (fun s => s.id)).Nodup) :
    moveSwapAux table roster (roster.map (fun s => s.id)) i j =
      table.map (fun s =>
        if s.id == (roster.get ⟨i, hi⟩).id then
          { s with order_index := (roster.get ⟨j, hj⟩).order_index }
        else if s.id == (roster.get ⟨j, hj⟩).id then
          { s with order_index := (roster.get ⟨i, hi⟩).order_index }
        else s) := by
  have hleni : i < (roster.map (fun s => s.id)).length := by simpa using hi
  have hlenj : j < (roster.map (fun s => s.id)).length := by simpa using hj
  have hgeti : (roster.map (fun s => s.id)).getD i 0 = (roster.get ⟨i, hi⟩).id := by
    rw [List.getD_eq_getElem _ _ hleni, List.getElem_map]
    rfl
  have hgetj : (roster.map (fun s => s.id)).getD j 0 = (roster.get ⟨j, hj⟩).id := by
    rw [List.getD_eq_getElem _ _ hlenj, List.getElem_map]
    rfl
  have hfindi : roster.find? (fun s => s.id == (roster.get ⟨i, hi⟩).id) =
      some (roster.get ⟨i, hi⟩) :=
    find?_id_of_nodup roster hR _ (List.get_mem _ _ _)
  have hfindj : roster.find? (fun s => s.id == (roster.get ⟨j, hj⟩).id) =
      some (roster.get ⟨j, hj⟩) :=
    find?_id_of_nodup roster hR _ (List.get_mem _ _ _)
  have hne : (roster.get ⟨i, hi⟩).id ≠ (roster.get ⟨j, hj⟩).id := by
    intro hcon
    have h1 : (roster.map (fun s => s.id)).get ⟨i, hleni⟩ =
        (roster.map (fun s => s.id)).get ⟨j, hlenj⟩ := by
      rw [List.get_map, List.get_map]
      exact hcon
    have h2 := (hR.get_inj_iff).mp h1
    rw [Fin.mk.injEq] at h2
    exact hij h2
  rw [moveSwapAux, if_pos hij, hgeti, hgetj, hfindi, hfindj]
  simp only [Option.map_some', Option.getD_some]
  exact updateOrder_updateOrder table _ _ _ _ hne

/-- C6: over a class roster (whose rows come from the students table, all of
one class), `move_student_order` is a silent no-op when the student id is not
in the roster, when the direction is unknown, and at the boundaries (first
element moved `up`, last element moved `down`); otherwise it exchanges exactly
the `order_index` values of the student and of its immediate neighbour in the
requested direction; and in every case the multiset of
`(class_id, order_index)` pairs over the whole students table — hence the
multiset of `order_index` values across the class — is preserved. -/
theorem C6_move_student_order (table roster : List Student) (sid cid : Nat) (dir : String)
    (hT : (table.map (fun s => s.id)).Nodup)
    (hR : (roster.map (fun s => s.id)).Nodup)
    (hsub : ∀ s ∈ roster, s ∈ table)
    (hclass : ∀ s ∈ roster, s.class_id = cid) :
    ((∀ s ∈ roster, s.id ≠ sid) → move_student_order table sid dir roster = table) ∧
    (dir ≠ "up" → dir ≠ "down" → move_student_order table sid dir roster = table) ∧
    (∀ h : roster ≠ [], dir = "up" → (roster.head h).id = sid →
      move_student_order table sid dir roster = table) ∧
    (∀ h : roster ≠ [], dir = "down" → (roster.getLast h).id = sid →
      move_student_order table sid dir roster = table) ∧
    (∀ (i : Nat) (hi : i < roster.length), (roster.get ⟨i, hi⟩).id = sid →
      ((dir = "up" → 0 < i →
        move_student_order table sid dir roster =
          table.map (fun s =>
            if s.id == (roster.get ⟨i, hi⟩).id then
              { s with order_index := (roster.get ⟨i - 1, by omega⟩).order_index }
            else if s.id == (roster.get ⟨i - 1, by omega⟩).id then
              { s with order_index := (roster.get ⟨i, hi⟩).order_index }
            else s)) ∧
       (dir = "down" → ∀ hlt : i + 1 < roster.length,
        move_student_order table sid dir roster =
          table.map (fun s =>
            if s.id == (roster.get ⟨i, hi⟩).id then
              { s with order_index := (roster.get ⟨i + 1, hlt⟩).order_index }
            else if s.id == (roster.get ⟨i + 1, hlt⟩).id then
              { s with order_index := (roster.get ⟨i, hi⟩).order_index }
            else s)))) ∧
    ((move_student_order table sid dir roster).map
        (fun s => (s.class_id, s.order_index))).Perm
      (table.map (fun s => (s.class_id, s.order_index))) := by
  have hidne : ∀ (i j : Nat) (hi : i < roster.length) (hj : j < roster.length), i ≠ j →
      (roster.get ⟨i, hi⟩).id ≠ (roster.get ⟨j, hj⟩).id := by
    intro i j hi hj hij hcon
    have h1 : (roster.map (fun s => s.id)).get ⟨i, by simpa using hi⟩ =
        (roster.map (fun s => s.id)).get ⟨j, by simpa using hj⟩ := by
      rw [List.get_map, List.get_map]
      exact hcon
    have h2 := (hR.get_inj_iff).mp h1
    rw [Fin.mk.injEq] at h2
    exact hij h2
  have hswap_perm : ∀ (i j : Nat) (hi : i < roster.length) (hj : j < roster.length),
      i ≠ j →
      ((moveSwapAux table roster (roster.map (fun s => s.id)) i j).map
        (fun s => (s.class_id, s.order_index))).Perm
        (table.map (fun s => (s.class_id, s.order_index))) := by
    intro i j hi hj hij
    rw [moveSwapAux_eq table roster i j hi hj hij hR]
    exact perm_pairs_swap table hT (roster.get ⟨i, hi⟩) (roster.get ⟨j, hj⟩)
      (hsub _ (List.get_mem _ _ _)) (hsub _ (List.get_mem _ _ _))
      (hidne i j hi hj hij)
      ((hclass _ (List.get_mem _ _ _)).trans (hclass _ (List.get_mem _ _ _)).symm)
  refine ⟨?_, ?_, ?_, ?_, ?_, ?_⟩
  · intro h
    exact move_none table roster sid dir (findIdx?_ids_none roster sid h)
  · intro hup hdown
    cases hfind : (roster.map (fun s => s.id)).findIdx? (fun x => x == sid) with
    | none => exact move_none table roster sid dir hfind
    | some i =>
      rw [move_some table roster sid dir i hfind, if_neg hup, if_neg hdown]
  · intro h hup hhead
    cases roster with
    | nil => exact absurd rfl h
    | cons a t =>
      have hfind : ((a :: t).map (fun s => s.id)).findIdx? (fun x => x == sid) = some 0 :=
        findIdx?_ids_of_get (a :: t) hR sid 0 (by simp) hhead
      rw [move_some table (a :: t) sid dir 0 hfind, if_pos hup, moveSwapAux,
        if_neg (by omega)]
  · intro h hdown hlast
    have hlen : 0 < roster.length := List.length_pos.mpr h
    have hget : (roster.get ⟨roster.length - 1, by omega⟩).id = sid := by
      rw [← List.getLast_eq_get roster h]
      exact hlast
    have hfind := findIdx?_ids_of_get roster hR sid (roster.length - 1) (by omega) hget
    rw [move_some table roster sid dir (roster.length - 1) hfind, if_neg (by rw [hdown]; decide),
      if_pos hdown]
    have hmin : min (roster.length - 1) (roster.length - 1 + 1) = roster.length - 1 := by
      omega
    rw [hmin, moveSwapAux, if_neg (by omega)]
  · intro i hi hv
    have hfind := findIdx?_ids_of_get roster hR sid i hi hv
    constructor
    · intro hup hi0
      rw [move_some table roster sid dir i hfind, if_pos hup]
      exact moveSwapAux_eq table roster i (i - 1) hi (by omega) (by omega) hR
    · intro hdown hlt
      rw [move_some table roster sid dir i hfind, if_neg (by rw [hdown]; decide),
        if_pos hdown]
      have hmin : min (roster.length - 1) (i + 1) = i + 1 := by omega
      rw [hmin]
      exact moveSwapAux_eq table roster i (i + 1) hi (by omega) (by omega) hR
  · cases hfind : (roster.map (fun s => s.id)).findIdx? (fun x => x == sid) with
    | none =>
      rw [move_none table roster sid dir hfind]
    | some i =>
      obtain ⟨hi, hv⟩ := findIdx?_ids_spec roster sid i hfind
      rw [move_some table roster sid dir i hfind]
      by_cases hup : dir = "up"
      · rw [if_pos hup]
        by_cases hi0 : i = 0
        · subst hi0
          rw [moveSwapAux, if_neg (by omega)]
        · exact hswap_perm i (i - 1) hi (by omega) (by omega)
      · rw [if_neg hup]
        by_cases hdown : dir = "down"
        · rw [if_pos hdown]
          by_cases hlast : i + 1 < roster.length
          · have hmin : min (roster.length - 1) (i + 1) = i + 1 := by omega
            rw [hmin]
            exact hswap_perm i (i + 1) hi (by omega) (by omega)
          · have hmin : min (roster.length - 1) (i + 1) = i := by omega
            rw [hmin, moveSwapAux, if_neg (by omega)]
        · rw [if_neg hdown]

/-- Witness for C6 at a concrete state: moving student 2 up in a two-student
class swaps the two order-index values, and moving the first student up is a
no-op. -/
theorem C6_move_student_order_witness :
    move_student_order [⟨1, "A", 5, 1⟩, ⟨2, "B", 5, 2⟩] 2 "up"
        [⟨1, "A", 5, 1⟩, ⟨2, "B", 5, 2⟩] =
      [⟨1, "A", 5, 2⟩, ⟨2, "B", 5, 1⟩] ∧
    move_student_order [⟨1, "A", 5, 1⟩, ⟨2, "B", 5, 2⟩] 1 "up"
        [⟨1, "A", 5, 1⟩, ⟨2, "B", 5, 2⟩] =
      [⟨1, "A", 5, 1⟩, ⟨2, "B", 5, 2⟩] := by
  constructor
  · have h := ((C6_move_student_order [⟨1, "A", 5, 1⟩, ⟨2, "B", 5, 2⟩]
      [⟨1, "A", 5, 1⟩, ⟨2, "B", 5, 2⟩] 2 5 "up" (by decide) (by decide)
      (by decide) (by decide)).2.2.2.2.1 1 (by decide) rfl).1 rfl (by decide)
    rw [h]
    decide
  · exact (C6_move_student_order [⟨1, "A", 5, 1⟩, ⟨2, "B", 5, 2⟩]
      [⟨1, "A", 5, 1⟩, ⟨2, "B", 5, 2⟩] 1 5 "up" (by decide) (by decide)
      (by decide) (by decide)).2.2.1 (by decide) rfl rfl

/-! ## Report engine -/

/-- Class name of a student via the `LEFT JOIN` with `classes` (empty when the
join finds no class). -/
def classNameOf (classes : List Cls) (cid : Nat) : String :=
  ((classes.find? (fun c => c.id == cid)).map (fun c => c.name)).getD ""

/-- Teacher name of a student's class via the same join. -/
def teacherOf (classes : List Cls) (cid : Nat) : String :=
  ((classes.find? (fun c => c.id == cid)).map (fun c => c.teacher_name)).getD ""

/-- Ids of the students whose current `class_id` is `cid` — the classmate
scope of the report's `N/C` lookup
(`df_students[df_students['class_id'] == student_class_id]['id']`). -/
def classmateIds (students : List Student) (cid : Nat) : List Nat :=
  (students.filter (fun s => s.class_id == cid)).map (fun s => s.id)

/-- Status resolution of the report loop for one student and one Sunday over
the range-filtered attendance `attF`: `N/C` when any classmate has an `N/C`
record for the date; else the student's stored record; else the synthetic
missed value `A (M)`. -/
def statusFor (attF : List AttRecord) (students : List Student) (stu : Student)
    (d : Nat) : String :=
  if 0 < (attF.filter (fun r => r.date == d &&
      (classmateIds students stu.class_id).contains r.student_id &&
      r.status == "N/C")).length then "N/C"
  else
    match (attF.filter (fun r => r.student_id == stu.id)).find? (fun r => r.date == d) with
    | some r => r.status
    | none => "A (M)"

lemma uniqueKeys_eq (att : List AttRecord) (hkeys : uniqueKeys att) {a b : AttRecord}
    (ha : a ∈ att) (hb : b ∈ att) (hd : a.date = b.date)
    (hs : a.student_id = b.student_id) : a = b := by
  by_contra hne
  have hsymm : Symmetric (fun a b : AttRecord =>
      ¬(a.date = b.date ∧ a.student_id = b.student_id)) := by
    intro x y hxy hcon
    exact hxy ⟨hcon.1.symm, hcon.2.symm⟩
  exact (List.Pairwise.forall hsymm hkeys) ha hb hne ⟨hd, hs⟩

/-- C1: for every student and in-range date, the reported status is `N/C` as
soon as any attendance record with that date and status `N/C` belongs to a
student whose current `class_id` equals the student's (even if the student has
no own row); otherwise it is the stored status of the student's own record for
that date when one exists; otherwise it is the synthetic missed value
`A (M)`. -/
theorem C1_status_resolution (att : List AttRecord) (students : List Student)
    (stu : Student) (d rs re : Nat) (hkeys : uniqueKeys att)
    (h1 : rs ≤ d) (h2 : d ≤ re) :
    ((∃ r ∈ att, r.date = d ∧ r.status = "N/C" ∧
        ∃ s ∈ students, s.class_id = stu.class_id ∧ r.student_id = s.id) →
      statusFor (att.filter (fun r => decide (rs ≤ r.date) && decide (r.date ≤ re)))
        students stu d = "N/C") ∧
    ((¬ ∃ r ∈ att, r.date = d ∧ r.status = "N/C" ∧
        ∃ s ∈ students, s.class_id = stu.class_id ∧ r.student_id = s.id) →
      ∀ st, (⟨d, stu.id, st⟩ : AttRecord) ∈ att →
        statusFor (att.filter (fun r => decide (rs ≤ r.date) && decide (r.date ≤ re)))
          students stu d = st) ∧
    ((¬ ∃ r ∈ att, r.date = d ∧ r.status = "N/C" ∧
        ∃ s ∈ students, s.class_id = stu.class_id ∧ r.student_id = s.id) →
      (∀ r ∈ att, ¬(r.date = d ∧ r.student_id = stu.id)) →
      statusFor (att.filter (fun r => decide (rs ≤ r.date) && decide (r.date ≤ re)))
        students stu d = "A (M)") := by
  have hnc : (¬ ∃ r ∈ att, r.date = d ∧ r.status = "N/C" ∧
      ∃ s ∈ students, s.class_id = stu.class_id ∧ r.student_id = s.id) →
      ¬ 0 < (((att.filter (fun r => decide (rs ≤ r.date) && decide (r.date ≤ re))).filter
        (fun r => r.date == d &&
          (classmateIds students stu.class_id).contains r.student_id &&
          r.status == "N/C"))).length := by
    intro hncl hpos
    obtain ⟨x, hx⟩ := List.exists_mem_of_length_pos hpos
    rw [List.mem_filter] at hx
    obtain ⟨hxF, hxpred⟩ := hx
    simp only [Bool.and_eq_true, beq_iff_eq] at hxpred
    obtain ⟨⟨hxd, hxcont⟩, hxst⟩ := hxpred
    have hxmem : x.student_id ∈ classmateIds students stu.class_id :=
      List.mem_of_elem_eq_true hxcont
    rw [classmateIds, List.mem_map] at hxmem
    obtain ⟨s, hsf, hsid⟩ := hxmem
    rw [List.mem_filter] at hsf
    exact hncl ⟨x, List.mem_of_mem_filter hxF, hxd, hxst, s, hsf.1,
      by simpa using hsf.2, hsid.symm⟩
  refine ⟨?_, ?_, ?_⟩
  · intro hcl
    obtain ⟨r, hr, hrd, hrst, s, hs, hscl, hsid⟩ := hcl
    unfold statusFor
    rw [if_pos ?_]
    apply List.length_pos.mpr
    apply List.ne_nil_of_mem
    show r ∈ _
    rw [List.mem_filter]
    constructor
    · rw [List.mem_filter]
      refine ⟨hr, ?_⟩
      rw [hrd]
      simp [h1, h2]
    · rw [hrd, hrst, hsid]
      simp only [beq_self_eq_true, Bool.and_true, Bool.true_and]
      apply List.elem_eq_true_of_mem
      rw [classmateIds, List.mem_map]
      exact ⟨s, List.mem_filter.mpr ⟨hs, by simpa using hscl⟩, rfl⟩
  · intro hncl st hst
    unfold statusFor
    rw [if_neg (hnc hncl)]
    have hrecF : (⟨d, stu.id, st⟩ : AttRecord) ∈
        (att.filter (fun r => decide (rs ≤ r.date) && decide (r.date ≤ re))).filter
          (fun r => r.student_id == stu.id) := by
      rw [List.mem_filter]
      refine ⟨?_, by simp⟩
      rw [List.mem_filter]
      exact ⟨hst, by simp [h1, h2]⟩
    cases hfind : ((att.filter (fun r => decide (rs ≤ r.date) && decide (r.date ≤ re))).filter
        (fun r => r.student_id == stu.id)).find? (fun r => r.date == d) with
    | none =>
      rw [List.find?_eq_none] at hfind
      exact absurd (by simp : (((⟨d, stu.id, st⟩ : AttRecord)).date == d) = true)
        (hfind _ hrecF)
    | some r' =>
      have hr'mem := List.mem_of_find?_eq_some hfind
      have hr'p := List.find?_some hfind
      rw [List.mem_filter] at hr'mem
      have hr'att : r' ∈ att := List.mem_of_mem_filter hr'mem.1
      have heq : r' = ⟨d, stu.id, st⟩ := by
        apply uniqueKeys_eq att hkeys hr'att hst
        · simpa using hr'p
        · simpa using hr'mem.2
      rw [heq]
  · intro hncl hnone
    unfold statusFor
    rw [if_neg (hnc hncl)]
    cases hfind : ((att.filter (fun r => decide (rs ≤ r.date) && decide (r.date ≤ re))).filter
        (fun r => r.student_id == stu.id)).find? (fun r => r.date == d) with
    | none => rfl
    | some r' =>
      have hr'mem := List.mem_of_find?_eq_some hfind
      have hr'p := List.find?_some hfind
      rw [List.mem_filter] at hr'mem
      exact absurd ⟨by simpa using hr'p, by simpa using hr'mem.2⟩
        (hnone r' (List.mem_of_mem_filter hr'mem.1))

/-- Witness for C1: classmate closure overrides the absent own row; a stored
`P` is reported as stored; a date with no record resolves to `A (M)`. -/
theorem C1_status_resolution_witness :
    statusFor ([⟨6, 1, "N/C"⟩, ⟨13, 2, "P"⟩].filter
        (fun r => decide (0 ≤ r.date) && decide (r.date ≤ 30)))
      [⟨1, "Ann", 1, 0⟩, ⟨2, "Ben", 1, 0⟩] ⟨2, "Ben", 1, 0⟩ 6 = "N/C" ∧
    statusFor ([⟨6, 1, "N/C"⟩, ⟨13, 2, "P"⟩].filter
        (fun r => decide (0 ≤ r.date) && decide (r.date ≤ 30)))
      [⟨1, "Ann", 1, 0⟩, ⟨2, "Ben", 1, 0⟩] ⟨2, "Ben", 1, 0⟩ 13 = "P" ∧
    statusFor ([⟨6, 1, "N/C"⟩, ⟨13, 2, "P"⟩].filter
        (fun r => decide (0 ≤ r.date) && decide (r.date ≤ 30)))
      [⟨1, "Ann", 1, 0⟩, ⟨2, "Ben", 1, 0⟩] ⟨2, "Ben", 1, 0⟩ 20 = "A (M)" :=
  ⟨(C1_status_resolution [⟨6, 1, "N/C"⟩, ⟨13, 2, "P"⟩]
      [⟨1, "Ann", 1, 0⟩, ⟨2, "Ben", 1, 0⟩] ⟨2, "Ben", 1, 0⟩ 6 0 30
      (by unfold uniqueKeys; decide) (by decide) (by decide)).1 (by decide),
   (C1_status_resolution [⟨6, 1, "N/C"⟩, ⟨13, 2, "P"⟩]
      [⟨1, "Ann", 1, 0⟩, ⟨2, "Ben", 1, 0⟩] ⟨2, "Ben", 1, 0⟩ 13 0 30
      (by unfold uniqueKeys; decide) (by decide) (by decide)).2.1 (by decide) "P" (by decide),
   (C1_status_resolution [⟨6, 1, "N/C"⟩, ⟨13, 2, "P"⟩]
      [⟨1, "Ann", 1, 0⟩, ⟨2, "Ben", 1, 0⟩] ⟨2, "Ben", 1, 0⟩ 20 0 30
      (by unfold uniqueKeys; decide) (by decide) (by decide)).2.2 (by decide) (by decide)⟩

/-- One iteration of the per-student report loop: the is-no-class test, the
per-date status, the `date_status` entry, and the `total_classes_for_student`
increment for a status in `{P, A, A (M)}` (checked only outside the `N/C`
branch, as in the source). -/
def reportStep (attF : List AttRecord) (students : List Student) (stu : Student)
    (acc : List (Nat × String) × Nat) (sunday : Nat) : List (Nat × String) × Nat :=
  if 0 < (attF.filter (fun r => r.date == sunday &&
      (classmateIds students stu.class_id).contains r.student_id &&
      r.status == "N/C")).length then
    (acc.1 ++ [(sunday, "N/C")], acc.2)
  else
    match (attF.filter (fun r => r.student_id == stu.id)).find?
        (fun r => r.date == sunday) with
    | some r =>
      (acc.1 ++ [(sunday, r.status)],
        if r.status ∈ (["P", "A", "A (M)"] : List String) then acc.2 + 1 else acc.2)
    | none =>
      (acc.1 ++ [(sunday, "A (M)")],
        if "A (M)" ∈ (["P", "A", "A (M)"] : List String) then acc.2 + 1 else acc.2)

/-- Round half to even, as Python's float formatting does (floats are modelled
exactly over `ℚ`); computed from the reduced numerator and denominator, with
`2 * (num - ⌊q⌋ * den)` compared against `den` to place the fractional part
relative to one half. -/
def roundHalfEven (q : ℚ) : ℤ :=
  if 2 * (q.num - q.num.fdiv q.den * q.den) < (q.den : ℤ) then q.num.fdiv q.den
  else if (q.den : ℤ) < 2 * (q.num - q.num.fdiv q.den * q.den) then q.num.fdiv q.den + 1
  else if q.num.fdiv q.den % 2 = 0 then q.num.fdiv q.den else q.num.fdiv q.den + 1

/-- Python's `f"{percentage:.1f}%"` for a nonnegative percentage. -/
def fmtPct (q : ℚ) : String :=
  toString (roundHalfEven (q * 10) / 10) ++ "." ++
    toString (roundHalfEven (q * 10) % 10) ++ "%"

/-- One row of the generated report. -/
structure ReportRow where
  className : String
  teacher : String
  studentName : String
  totalClasses : Nat
  attended : Nat
  attendancePct : String
  dateStatus : List (Nat × String)
deriving DecidableEq

/-- Per-student row of the Generate Report handler: fold the status loop over
the Sundays in range, count the `P` entries of `date_status`, and format the
percentage (0 when `Total Classes` is 0). -/
def mkRow (classes : List Cls) (attF : List AttRecord) (students : List Student)
    (stu : Student) (sundays : List Nat) : ReportRow :=
  { className := classNameOf classes stu.class_id
    teacher := teacherOf classes stu.class_id
    studentName := stu.name
    totalClasses := (sundays.foldl (reportStep attF students stu) ([], 0)).2
    attended := (((sundays.foldl (reportStep attF students stu) ([], 0)).1.map
      (fun p => p.2)).count "P")
    attendancePct := fmtPct
      (if 0 < (sundays.foldl (reportStep attF students stu) ([], 0)).2 then
        ((((sundays.foldl (reportStep attF students stu) ([], 0)).1.map
          (fun p => p.2)).count "P" : ℚ) /
          ((sundays.foldl (reportStep attF students stu) ([], 0)).2 : ℚ)) * 100
       else 0)
    dateStatus := (sundays.foldl (reportStep attF students stu) ([], 0)).1 }

lemma reportStep_eq (attF : List AttRecord) (students : List Student) (stu : Student)
    (acc : List (Nat × String) × Nat) (d : Nat) :
    reportStep attF students stu acc d =
      (acc.1 ++ [(d, statusFor attF students stu d)],
       if statusFor attF students stu d ∈ (["P", "A", "A (M)"] : List String) then
         acc.2 + 1
       else acc.2) := by
  unfold reportStep statusFor
  by_cases hC : 0 < (attF.filter (fun r => r.date == d &&
      (classmateIds students stu.class_id).contains r.student_id &&
      r.status == "N/C")).length
  · rw [if_pos hC, if_pos hC, if_neg (by decide)]
  · rw [if_neg hC, if_neg hC]
    cases hfind : (attF.filter (fun r => r.student_id == stu.id)).find?
        (fun r => r.date == d) with
    | some r => rfl
    | none => rfl

lemma reportLoop (attF : List AttRecord) (students : List Student) (stu : Student) :
    ∀ (sundays : List Nat) (ds0 : List (Nat × String)) (n0 : Nat),
      sundays.foldl (reportStep attF students stu) (ds0, n0) =
        (ds0 ++ sundays.map (fun d => (d, statusFor attF students stu d)),
         n0 + sundays.countP (fun d =>
           decide (statusFor attF students stu d ∈ (["P", "A", "A (M)"] : List String)))) := by
  intro sundays
  induction sundays with
  | nil =>
    intro ds0 n0
    simp
  | cons d rest ih =>
    intro ds0 n0
    rw [List.foldl_cons, reportStep_eq, ih, List.map_cons, List.countP_cons]
    by_cases hd : statusFor attF students stu d ∈ (["P", "A", "A (M)"] : List String)
    · rw [if_pos hd]
      simp only [Prod.mk.injEq]
      constructor
      · rw [List.append_assoc, List.singleton_append]
      · rw [if_pos (decide_eq_true_iff.mpr hd)]
        omega
    · rw [if_neg hd]
      simp only [Prod.mk.injEq]
      constructor
      · rw [List.append_assoc, List.singleton_append]
      · rw [if_neg (fun hcon => hd (decide_eq_true_iff.mp hcon))]
        omega

lemma roundHalfEven_den_one (q : ℚ) (h : q.den = 1) : roundHalfEven q = q.num := by
  rw [roundHalfEven, h]
  norm_num [Int.fdiv_one]

lemma fmtPct_zero : fmtPct 0 = "0.0%" := by
  have h : (0 : ℚ) * 10 = 0 := by norm_num
  rw [fmtPct, h, roundHalfEven_den_one 0 (by norm_num)]
  have h0 : (0 : ℚ).num = 0 := by norm_num
  rw [h0]
  decide

lemma fmtPct_fifty : fmtPct 50 = "50.0%" := by
  have h : (50 : ℚ) * 10 = 500 := by norm_num
  rw [fmtPct, h, roundHalfEven_den_one 500 (by norm_num)]
  have h500 : (500 : ℚ).num = 500 := by norm_num
  rw [h500]
  decide

lemma count_map_snd (l : List Nat) (f : Nat → String) (b : String) :
    ((l.map (fun d => ((d, f d) : Nat × String))).map (fun p => p.2)).count b =
      l.countP (fun d => f d == b) := by
  induction l with
  | nil => rfl
  | cons x l ih =>
    rw [List.map_cons, List.map_cons, List.count_cons, List.countP_cons, ih]

/-- C2: per student, `Total Classes` counts exactly the dates in range whose
resolved status is `P`, `A` or the synthetic missed value (so `N/C` dates are
excluded); `Attended` counts exactly the dates resolved `P`; `Attendance %` is
`Attended / Total Classes * 100` — 0 when `Total Classes` is 0, avoiding the
division by zero — formatted to one decimal place with a trailing `%`; a
student with `Total Classes = 0` gets `"0.0%"` and one with 2 `P` and 2 `A`
out of 4 gets `"50.0%"`. -/
theorem C2_report_aggregation (classes : List Cls) (attF : List AttRecord)
    (students : List Student) (stu : Student) (sundays : List Nat) :
    (mkRow classes attF students stu sundays).totalClasses =
      (sundays.filter (fun d =>
        decide (statusFor attF students stu d ∈ (["P", "A", "A (M)"] : List String)))).length ∧
    (mkRow classes attF students stu sundays).attended =
      (sundays.filter (fun d => statusFor attF students stu d == "P")).length ∧
    (mkRow classes attF students stu sundays).attendancePct =
      fmtPct (if 0 < (mkRow classes attF students stu sundays).totalClasses then
        (((mkRow classes attF students stu sundays).attended : ℚ) /
          ((mkRow classes attF students stu sundays).totalClasses : ℚ)) * 100
       else 0) ∧
    ((mkRow classes attF students stu sundays).totalClasses = 0 →
      (mkRow classes attF students stu sundays).attendancePct = "0.0%") ∧
    ((mkRow classes attF students stu sundays).attended = 2 →
      (mkRow classes attF students stu sundays).totalClasses = 4 →
      (mkRow classes attF students stu sundays).attendancePct = "50.0%") := by
  have hfold := reportLoop attF students stu sundays [] 0
  have htot : (mkRow classes attF students stu sundays).totalClasses =
      (sundays.filter (fun d =>
        decide (statusFor attF students stu d ∈ (["P", "A", "A (M)"] : List String)))).length := by
    show (sundays.foldl (reportStep attF students stu) ([], 0)).2 = _
    rw [hfold, ← List.countP_eq_length_filter]
    simp
  have hatt : (mkRow classes attF students stu sundays).attended =
      (sundays.filter (fun d => statusFor attF students stu d == "P")).length := by
    show (((sundays.foldl (reportStep attF students stu) ([], 0)).1.map
      (fun p => p.2)).count "P") = _
    rw [hfold, ← List.countP_eq_length_filter]
    simp only [List.nil_append]
    exact count_map_snd sundays _ "P"
  have hpct : (mkRow classes attF students stu sundays).attendancePct =
      fmtPct (if 0 < (mkRow classes attF students stu sundays).totalClasses then
        (((mkRow classes attF students stu sundays).attended : ℚ) /
          ((mkRow classes attF students stu sundays).totalClasses : ℚ)) * 100
       else 0) := rfl
  refine ⟨htot, hatt, hpct, ?_, ?_⟩
  · intro h0
    rw [hpct, h0, if_neg (lt_irrefl 0)]
    exact fmtPct_zero
  · intro h2 h4
    rw [hpct, h2, h4, if_pos (by norm_num)]
    have h50 : ((2 : ℕ) : ℚ) / ((4 : ℕ) : ℚ) * 100 = 50 := by norm_num
    rw [h50]
    exact fmtPct_fifty

/-- Witness for C2: a student with records P, P, A, A over four Sundays gets
Total Classes 4, Attended 2 and `"50.0%"`; with no Sundays in range the
percentage is `"0.0%"`. -/
theorem C2_report_aggregation_witness :
    (mkRow [] [⟨6, 1, "P"⟩, ⟨13, 1, "P"⟩, ⟨20, 1, "A"⟩, ⟨27, 1, "A"⟩] [⟨1, "Ann", 1, 0⟩]
      ⟨1, "Ann", 1, 0⟩ [6, 13, 20, 27]).attendancePct = "50.0%" ∧
    (mkRow [] [⟨6, 1, "P"⟩, ⟨13, 1, "P"⟩, ⟨20, 1, "A"⟩, ⟨27, 1, "A"⟩] [⟨1, "Ann", 1, 0⟩]
      ⟨1, "Ann", 1, 0⟩ []).attendancePct = "0.0%" :=
  ⟨(C2_report_aggregation [] [⟨6, 1, "P"⟩, ⟨13, 1, "P"⟩, ⟨20, 1, "A"⟩, ⟨27, 1, "A"⟩]
      [⟨1, "Ann", 1, 0⟩] ⟨1, "Ann", 1, 0⟩ [6, 13, 20, 27]).2.2.2.2 (by decide) (by decide),
   (C2_report_aggregation [] [⟨6, 1, "P"⟩, ⟨13, 1, "P"⟩, ⟨20, 1, "A"⟩, ⟨27, 1, "A"⟩]
      [⟨1, "Ann", 1, 0⟩] ⟨1, "Ann", 1, 0⟩ []).2.2.2.1 (by decide)⟩

/-! ## Report assembly and ordering -/

/-- String comparison (SQLite BINARY collation), on the underlying character
list. -/
def strLt (a b : String) : Bool := decide (a.data < b.data)

def strLe (a b : String) : Bool := strLt a b || a == b

/-- Sort key of `load_data`'s student query:
`ORDER BY c.name, s.order_index, s.name`. -/
def studentLE (classes : List Cls) (a b : Student) : Bool :=
  strLt (classNameOf classes a.class_id) (classNameOf classes b.class_id) ||
    (classNameOf classes a.class_id == classNameOf classes b.class_id &&
      (decide (a.order_index < b.order_index) ||
        (a.order_index == b.order_index && strLe a.name b.name)))

/-- The students table as loaded for display and reporting, sorted by
`(class name, order_index, student name)`. -/
def sortStudents (classes : List Cls) (students : List Student) : List Student :=
  List.insertionSort (fun a b => studentLE classes a b = true) students

/-- Generate Report: one row per student, in load order, over the eligible
Sundays of the requested sub-range, against the range-filtered attendance. -/
def generateReport (classes : List Cls) (students : List Student)
    (att : List AttRecord) (ss se rs re : Nat) : List ReportRow :=
  (sortStudents classes students).map (fun stu =>
    mkRow classes (att.filter (fun r => decide (rs ≤ r.date) && decide (r.date ≤ re)))
      students stu
      ((get_all_sundays ss se).filter (fun d => decide (rs ≤ d) && decide (d ≤ re))))

/-- `display_cols_order`: Class, Teacher, Student Name, one column per date
ascending, Total Classes, Attended, Attendance %. -/
def reportColumns (sundaysInRange : List Nat) : List String :=
  ["Class", "Teacher", "Student Name"] ++ sundaysInRange.map (fun d => toString d) ++
    ["Total Classes", "Attended", "Attendance %"]

lemma strLt_iff (a b : String) : strLt a b = true ↔ a < b := by
  rw [strLt, decide_eq_true_iff, String.lt_iff_toList_lt]
  exact Iff.rfl

lemma strLe_iff (a b : String) : strLe a b = true ↔ a ≤ b := by
  rw [strLe, Bool.or_eq_true, strLt_iff, beq_iff_eq]
  exact le_iff_lt_or_eq.symm

lemma studentLE_iff (classes : List Cls) (a b : Student) :
    studentLE classes a b = true ↔
      (classNameOf classes a.class_id < classNameOf classes b.class_id ∨
        (classNameOf classes a.class_id = classNameOf classes b.class_id ∧
          (a.order_index < b.order_index ∨
            (a.order_index = b.order_index ∧ a.name ≤ b.name)))) := by
  rw [studentLE]
  simp only [Bool.or_eq_true, Bool.and_eq_true, strLt_iff, strLe_iff, beq_iff_eq,
    decide_eq_true_iff]

lemma studentLE_total (classes : List Cls) (a b : Student) :
    studentLE classes a b = true ∨ studentLE classes b a = true := by
  rw [studentLE_iff, studentLE_iff]
  rcases lt_trichotomy (classNameOf classes a.class_id) (classNameOf classes b.class_id)
    with h | h | h
  · exact Or.inl (Or.inl h)
  · rcases lt_trichotomy a.order_index b.order_index with h2 | h2 | h2
    · exact Or.inl (Or.inr ⟨h, Or.inl h2⟩)
    · rcases le_total a.name b.name with h3 | h3
      · exact Or.inl (Or.inr ⟨h, Or.inr ⟨h2, h3⟩⟩)
      · exact Or.inr (Or.inr ⟨h.symm, Or.inr ⟨h2.symm, h3⟩⟩)
    · exact Or.inr (Or.inr ⟨h.symm, Or.inl h2⟩)
  · exact Or.inr (Or.inl h)

lemma studentLE_trans (classes : List Cls) (a b c : Student)
    (h1 : studentLE classes a b = true) (h2 : studentLE classes b c = true) :
    studentLE classes a c = true := by
  rw [studentLE_iff] at h1 h2 ⊢
  rcases h1 with h1 | ⟨h1e, h1r⟩
  · rcases h2 with h2 | ⟨h2e, _⟩
    · exact Or.inl (h1.trans h2)
    · exact Or.inl (h2e ▸ h1)
  · rcases h2 with h2 | ⟨h2e, h2r⟩
    · exact Or.inl (h1e ▸ h2)
    · refine Or.inr ⟨h1e.trans h2e, ?_⟩
      rcases h1r with h1r | ⟨h1o, h1n⟩
      · rcases h2r with h2r | ⟨h2o, _⟩
        · exact Or.inl (h1r.trans h2r)
        · exact Or.inl (h2o ▸ h1r)
      · rcases h2r with h2r | ⟨h2o, h2n⟩
        · exact Or.inl (h1o ▸ h2r)
        · exact Or.inr ⟨h1o.trans h2o, h1n.trans h2n⟩

/-- C9 (amended): the generated report has one row per student (a permutation
of the students table); rows follow the load order — sorted by class name,
then `order_index`, then student name, so they are grouped by class in
ascending class-name order but within a class follow the roster order rather
than the student name alone; columns are Class, Teacher, Student Name, one
column per eligible date in ascending date order, Total Classes, Attended,
Attendance %. -/
theorem C9_report_ordering (classes : List Cls) (students : List Student)
    (att : List AttRecord) (ss se rs re : Nat) :
    (generateReport classes students att ss se rs re =
      (sortStudents classes students).map (fun stu =>
        mkRow classes (att.filter (fun r => decide (rs ≤ r.date) && decide (r.date ≤ re)))
          students stu
          ((get_all_sundays ss se).filter (fun d => decide (rs ≤ d) && decide (d ≤ re))))) ∧
    List.Pairwise (fun a b => studentLE classes a b = true)
      (sortStudents classes students) ∧
    (sortStudents classes students).Perm students ∧
    List.Pairwise (fun r1 r2 : ReportRow => r1.className ≤ r2.className)
      (generateReport classes students att ss se rs re) ∧
    reportColumns ((get_all_sundays ss se).filter
        (fun d => decide (rs ≤ d) && decide (d ≤ re))) =
      ["Class", "Teacher", "Student Name"] ++
        ((get_all_sundays ss se).filter (fun d => decide (rs ≤ d) && decide (d ≤ re))).map
          (fun d => toString d) ++
        ["Total Classes", "Attended", "Attendance %"] ∧
    List.Pairwise (fun a b => a < b)
      ((get_all_sundays ss se).filter (fun d => decide (rs ≤ d) && decide (d ≤ re))) := by
  have hsorted : List.Pairwise (fun a b => studentLE classes a b = true)
      (sortStudents classes students) := by
    haveI : IsTotal Student (fun a b => studentLE classes a b = true) :=
      ⟨fun a b => studentLE_total classes a b⟩
    haveI : IsTrans Student (fun a b => studentLE classes a b = true) :=
      ⟨fun a b c => studentLE_trans classes a b c⟩
    exact List.sorted_insertionSort _ students
  refine ⟨rfl, hsorted, List.perm_insertionSort _ students, ?_, rfl, ?_⟩
  · refine List.Pairwise.map _ ?_ hsorted
    intro a b hab
    rw [studentLE_iff] at hab
    show classNameOf classes a.class_id ≤ classNameOf classes b.class_id
    rcases hab with h | ⟨h, _⟩
    · exact le_of_lt h
    · exact le_of_eq h
  · have hpw : List.Pairwise (fun a b => a < b) (get_all_sundays ss se) := by
      rw [← List.chain'_iff_pairwise]
      exact (chain'_sundaysFrom (ss + (6 - ss % 7 + 7) % 7) se).imp (fun a b h => by omega)
    exact List.Pairwise.sublist (List.filter_sublist _) hpw

/-- C9 counterexample: with a single class `X` and students Bob
(`order_index` 1) and Alice (`order_index` 2), the generated rows come out Bob
before Alice — ordered by the roster order within the class, not by Student
Name — so the rows are not ordered by (Class, Student Name). -/
theorem C9_row_order_counterexample :
    ¬ List.Pairwise (fun r1 r2 : ReportRow =>
        r1.className < r2.className ∨
          (r1.className = r2.className ∧ r1.studentName ≤ r2.studentName))
      (generateReport [⟨1, "X", "T"⟩] [⟨1, "Bob", 1, 1⟩, ⟨2, "Alice", 1, 2⟩] [] 0 6 0 6) := by
  intro hpair
  have hnames : (generateReport [⟨1, "X", "T"⟩] [⟨1, "Bob", 1, 1⟩, ⟨2, "Alice", 1, 2⟩]
      [] 0 6 0 6).map (fun r => (r.className, r.studentName)) =
      [("X", "Bob"), ("X", "Alice")] := by decide
  have hp2 : List.Pairwise (fun p q : String × String =>
      p.1 < q.1 ∨ (p.1 = q.1 ∧ p.2 ≤ q.2))
      ((generateReport [⟨1, "X", "T"⟩] [⟨1, "Bob", 1, 1⟩, ⟨2, "Alice", 1, 2⟩]
        [] 0 6 0 6).map (fun r => (r.className, r.studentName))) := by
    refine List.Pairwise.map _ ?_ hpair
    intro a b hab
    exact hab
  rw [hnames, List.pairwise_cons] at hp2
  have h1 := hp2.1 ("X", "Alice") (List.mem_singleton.mpr rfl)
  rcases h1 with h1 | h1
  · exact absurd h1 (lt_irrefl _)
  · have h2 := h1.2
    rw [String.le_iff_toList_le] at h2
    exact absurd h2 (by decide)

end SchoolAttendance
